import Mathlib

/-!
Shallow embedding of the BOXMEOUT_STELLA settlement core
(`contracts/contracts/boxmeout/src/{amm.rs, helpers.rs, oracle.rs, market.rs}`).

Modelling conventions:

* `u128` values (reserves, share amounts, fee basis points) are modelled as `Nat`.
  The contract uses checked unsigned arithmetic (an overflow or underflow aborts
  the call), so `Nat` arithmetic coincides with the source on every run that
  completes; subtractions below are all guarded so that truncated `Nat`
  subtraction agrees with the `u128` subtraction of the source.
* `i128` values (staking-pool amounts in `market.rs`) are modelled as `Int`,
  with the checked multiply / checked divide of `claim_winnings` made explicit
  (`checked_mul_i128`, `checked_div_i128`) and Rust signed division rendered as
  `Int.tdiv` (truncation toward zero, exactly the Rust `/` on `i128`).
* A contract call that panics or returns an error is modelled as `none`
  (resp. an `Except.error`); a completed call is `some`/`Except.ok` carrying the
  values the call writes back to storage plus its return value.  An aborted
  Soroban invocation rolls back every write, so the `none` branches carry no
  state on purpose.
* Storage reads are passed in as arguments (current reserves, the pool-exists
  flag, the caller's recorded share balance, the market lifecycle fields); the
  result structures list every storage write the call performs.
-/

namespace Boxmeout

/-! ### helpers.rs -/

/-- From `helpers.rs::calculate_shares_out` (lines 123-142): CPMM buy helper,
`shares_out = reserve_out - k / (reserve_in + amount_in)` with `k` the product
of the reserves before the trade. -/
def calculate_shares_out (yes_reserve no_reserve outcome amount_in : Nat) : Nat :=
  let k := yes_reserve * no_reserve
  if outcome = 1 then
    let new_no_reserve := no_reserve + amount_in
    let new_yes_reserve := k / new_no_reserve
    yes_reserve - new_yes_reserve
  else
    let new_yes_reserve := yes_reserve + amount_in
    let new_no_reserve := k / new_yes_reserve
    no_reserve - new_no_reserve

/-- From `helpers.rs::calculate_payout` (lines 148-167): CPMM sell helper,
`payout = reserve_out - k / (reserve_in + shares_in)`.  Selling YES adds the
shares to the YES reserve and pays from the NO reserve; selling NO is
symmetric. -/
def calculate_payout (yes_reserve no_reserve outcome shares_in : Nat) : Nat :=
  let k := yes_reserve * no_reserve
  if outcome = 1 then
    let new_yes_reserve := yes_reserve + shares_in
    let new_no_reserve := k / new_yes_reserve
    no_reserve - new_no_reserve
  else
    let new_no_reserve := no_reserve + shares_in
    let new_yes_reserve := k / new_no_reserve
    yes_reserve - new_yes_reserve

/-! ### amm.rs -/

/-- Storage writes and return value of a completed `AMM::buy_shares` call. -/
structure BuyResult where
  shares_out : Nat
  fee_amount : Nat
  new_yes_reserve : Nat
  new_no_reserve : Nat
  deriving Repr, DecidableEq

/-- From `amm.rs::buy_shares` (lines 181-317).  Guards in source order:
outcome binary, amount positive, pool exists, both reserves positive; then the
fee is deducted from the input, `shares_out = amount_after_fee * reserve_out /
(reserve_in + amount_after_fee)` (buying YES pays into the NO reserve and draws
from the YES reserve), slippage bound, and the explicit constant-product check
`new_k < old_k => abort` of lines 264-269.  The reserve update (lines 271-285)
moves the whole `amount_after_fee` into the input reserve and removes
`shares_out` from the output reserve, as computed by the tuple at lines
228-248. -/
def buy_shares (trading_fee_bps : Nat) (pool_exs : Bool)
    (yes_reserve no_reserve outcome amount min_shares : Nat) : Option BuyResult :=
  if 1 < outcome then none
  else if amount = 0 then none
  else if pool_exs = false then none
  else if yes_reserve = 0 ∨ no_reserve = 0 then none
  else
    let fee_amount := amount * trading_fee_bps / 10000
    let amount_after_fee := amount - fee_amount
    let reserve_in := if outcome = 1 then no_reserve else yes_reserve
    let reserve_out := if outcome = 1 then yes_reserve else no_reserve
    let shares_out := amount_after_fee * reserve_out / (reserve_in + amount_after_fee)
    let new_reserve_in := reserve_in + amount_after_fee
    let new_reserve_out := reserve_out - shares_out
    if shares_out < min_shares then none
    else if new_reserve_in * new_reserve_out < yes_reserve * no_reserve then none
    else if outcome = 1 then
      some ⟨shares_out, fee_amount, new_reserve_out, new_reserve_in⟩
    else
      some ⟨shares_out, fee_amount, new_reserve_in, new_reserve_out⟩

/-- Storage writes and return value of a completed `AMM::sell_shares` call.
`payout` is the gross amount that leaves the output reserve;
`payout_after_fee` is what the seller receives. -/
structure SellResult where
  payout : Nat
  fee : Nat
  payout_after_fee : Nat
  new_yes_reserve : Nat
  new_no_reserve : Nat
  new_user_shares : Nat
  deriving Repr, DecidableEq

/-- From `amm.rs::sell_shares` (lines 321-421).  Guards in source order:
outcome binary, shares positive, pool exists, seller balance sufficient; the
gross payout comes from `calculate_payout`, the fee is retained out of the
payout, the slippage bound checks the net amount, and the reserve update
(lines 371-380) adds the sold shares to the sold side and subtracts the gross
payout from the other side.  The source performs no drain check here. -/
def sell_shares (trading_fee_bps : Nat) (pool_exs : Bool)
    (yes_reserve no_reserve user_shares outcome shares min_payout : Nat) :
    Option SellResult :=
  if 1 < outcome then none
  else if shares = 0 then none
  else if pool_exs = false then none
  else if user_shares < shares then none
  else
    let payout := calculate_payout yes_reserve no_reserve outcome shares
    let fee := payout * trading_fee_bps / 10000
    let payout_after_fee := payout - fee
    if payout_after_fee < min_payout then none
    else if outcome = 1 then
      some ⟨payout, fee, payout_after_fee,
        yes_reserve + shares, no_reserve - payout, user_shares - shares⟩
    else
      some ⟨payout, fee, payout_after_fee,
        yes_reserve - payout, no_reserve + shares, user_shares - shares⟩

/-- Storage writes and return value of a completed `AMM::remove_liquidity`
call. -/
structure RemoveLiquidityResult where
  yes_amount : Nat
  no_amount : Nat
  new_yes_reserve : Nat
  new_no_reserve : Nat
  new_lp_balance : Nat
  new_lp_supply : Nat
  deriving Repr, DecidableEq

/-- From `amm.rs::remove_liquidity` (lines 606-733).  Guards in source order:
lp_tokens positive, pool exists, provider balance sufficient; proportional
withdrawal amounts `lp_tokens * reserve / lp_supply` with a zero-amount
rejection, then the explicit drain check of lines 677-680: both updated
reserves must stay nonzero.  A zero `lp_supply` makes both proportional
amounts zero in this model, and the call aborts at the zero-amount check just
as the source aborts (there on the division). -/
def remove_liquidity (pool_exs : Bool)
    (lp_balance lp_supply yes_reserve no_reserve lp_tokens : Nat) :
    Option RemoveLiquidityResult :=
  if lp_tokens = 0 then none
  else if pool_exs = false then none
  else if lp_balance < lp_tokens then none
  else
    let yes_amount := lp_tokens * yes_reserve / lp_supply
    let no_amount := lp_tokens * no_reserve / lp_supply
    if yes_amount = 0 ∨ no_amount = 0 then none
    else
      let new_yes_reserve := yes_reserve - yes_amount
      let new_no_reserve := no_reserve - no_amount
      if new_yes_reserve = 0 ∨ new_no_reserve = 0 then none
      else
        some ⟨yes_amount, no_amount, new_yes_reserve, new_no_reserve,
          lp_balance - lp_tokens, lp_supply - lp_tokens⟩

/-- From `amm.rs::get_odds` (lines 595-777).  Branches in source order: no
pool, both reserves zero, YES reserve zero, NO reserve zero, then the odds
`no_reserve * 10000 / total` and `yes_reserve * 10000 / total` with the
rounding adjustment of lines 765-774 (shortfall added to the side whose odds
are not smaller, so a tie favors the YES side).  All returned values are at
most 10000, so the `as u32` casts of the source are lossless. -/
def get_odds (pool_exs : Bool) (yes_reserve no_reserve : Nat) : Nat × Nat :=
  if pool_exs = false then (5000, 5000)
  else if yes_reserve = 0 ∧ no_reserve = 0 then (5000, 5000)
  else if yes_reserve = 0 then (0, 10000)
  else if no_reserve = 0 then (10000, 0)
  else
    let total_liquidity := yes_reserve + no_reserve
    let yes_odds := no_reserve * 10000 / total_liquidity
    let no_odds := yes_reserve * 10000 / total_liquidity
    let total_odds := yes_odds + no_odds
    if total_odds ≠ 10000 then
      let adjustment := 10000 - total_odds
      if no_odds ≤ yes_odds then (yes_odds + adjustment, no_odds)
      else (yes_odds, no_odds + adjustment)
    else (yes_odds, no_odds)

/-! ### oracle.rs -/

/-- Vote tally of `oracle.rs::check_consensus` (lines 201-212): a stored vote
equal to 1 counts as YES. -/
def count_yes_votes (votes : List Nat) : Nat :=
  (votes.filter (fun v => v == 1)).length

/-- Vote tally of `oracle.rs::check_consensus`: any stored vote other than 1
falls into the `else` branch and counts as NO. -/
def count_no_votes (votes : List Nat) : Nat :=
  (votes.filter (fun v => ! (v == 1))).length

/-- From `oracle.rs::check_consensus` (lines 180-228).  `votes` is the list of
stored attestation values for the market, one per recorded voter, in voter
order.  Early exit when fewer voters than the threshold; then the decision
ladder of lines 218-227, including the redundant explicit tie branch. -/
def check_consensus (threshold : Nat) (votes : List Nat) : Bool × Nat :=
  if votes.length < threshold then (false, 0)
  else
    let yes_votes := count_yes_votes votes
    let no_votes := count_no_votes votes
    if threshold ≤ yes_votes ∧ no_votes < yes_votes then (true, 1)
    else if threshold ≤ no_votes ∧ yes_votes < no_votes then (true, 0)
    else if threshold ≤ yes_votes ∧ threshold ≤ no_votes ∧ yes_votes = no_votes then
      (false, 0)
    else (false, 0)

/-! ### market.rs -/

/-- Market lifecycle constants from `market.rs` lines 28-30. -/
def STATE_OPEN : Nat := 0

/-- Market state CLOSED. -/
def STATE_CLOSED : Nat := 1

/-- Market state RESOLVED. -/
def STATE_RESOLVED : Nat := 2

/-- Smallest `i128` value. -/
def I128_MIN : Int := -(2 ^ 127)

/-- Largest `i128` value. -/
def I128_MAX : Int := 2 ^ 127 - 1

/-- Rust `i128::checked_mul`: `none` exactly when the product falls outside
the `i128` range. -/
def checked_mul_i128 (a b : Int) : Option Int :=
  if I128_MIN ≤ a * b ∧ a * b ≤ I128_MAX then some (a * b) else none

/-- Rust `i128::checked_div`: `none` on division by zero or on the single
overflowing quotient; otherwise truncated division, which is what Rust `/`
computes on `i128`. -/
def checked_div_i128 (a b : Int) : Option Int :=
  if b = 0 then none
  else if a = I128_MIN ∧ b = -1 then none
  else some (a.tdiv b)

/-- From `market.rs::UserPrediction` (lines 72-78), the fields
`claim_winnings` reads and writes. -/
structure UserPrediction where
  outcome : Nat
  amount : Int
  claimed : Bool
  deriving Repr, DecidableEq

/-- The storage fields of one market that `resolve_market` and
`claim_winnings` touch: lifecycle state, the two staking pools, and the
resolution data written at resolution time. -/
structure MarketState where
  state : Nat
  yes_pool : Int
  no_pool : Int
  winning_outcome : Nat
  winner_shares : Int
  loser_shares : Int
  deriving Repr, DecidableEq

/-- Error outcomes of `claim_winnings`, one per abort site in source order. -/
inductive ClaimError where
  | MarketNotResolved
  | NoPrediction
  | AlreadyClaimed
  | NotWinner
  | NoWinners
  | Overflow
  | ZeroPayout
  deriving Repr, DecidableEq

/-- From `market.rs::claim_winnings` (lines 520-620).  Checks in source
order: market resolved, prediction exists, not yet claimed, predicted outcome
equals the winning outcome, winner pool nonzero; then
`gross = checked_mul(amount, winner + loser) |> checked_div winner`
(lines 582-587), the 10 percent fee `gross / 10` (Rust truncated division),
and the zero-net rejection.  On success the call pays `net` and writes the
prediction back with `claimed := true` (lines 609-611). -/
def claim_winnings (st : MarketState) (pred : Option UserPrediction) :
    Except ClaimError (Int × UserPrediction) :=
  if st.state ≠ STATE_RESOLVED then .error .MarketNotResolved
  else
    match pred with
    | none => .error .NoPrediction
    | some p =>
      if p.claimed then .error .AlreadyClaimed
      else if p.outcome ≠ st.winning_outcome then .error .NotWinner
      else
        let total_pool := st.winner_shares + st.loser_shares
        if st.winner_shares = 0 then .error .NoWinners
        else
          match checked_mul_i128 p.amount total_pool with
          | none => .error .Overflow
          | some prod =>
            match checked_div_i128 prod st.winner_shares with
            | none => .error .Overflow
            | some gross_payout =>
              let fee := gross_payout.tdiv 10
              let net_payout := gross_payout - fee
              if net_payout = 0 then .error .ZeroPayout
              else .ok (net_payout, { p with claimed := true })

/-- From `market.rs::resolve_market` (lines 381-481).  `consensus` is the
pair returned by the oracle client call `check_consensus(market_id)`.
Checks in source order: resolution time reached, state not OPEN, state not
already RESOLVED, consensus reached, outcome binary; then the winner and
loser share totals are taken from the staking pools according to the winning
outcome, and the state moves to RESOLVED.  An aborted call (any `none`)
writes nothing. -/
def resolve_market (current_time resolution_time : Nat) (consensus : Bool × Nat)
    (st : MarketState) : Option MarketState :=
  if current_time < resolution_time then none
  else if st.state = STATE_OPEN then none
  else if st.state = STATE_RESOLVED then none
  else if consensus.1 = false then none
  else if 1 < consensus.2 then none
  else
    let winner_shares := if consensus.2 = 1 then st.yes_pool else st.no_pool
    let loser_shares := if consensus.2 = 1 then st.no_pool else st.yes_pool
    some { st with
      state := STATE_RESOLVED
      winning_outcome := consensus.2
      winner_shares := winner_shares
      loser_shares := loser_shares }

/-! ### Arithmetic helper lemmas -/

/-- Numerator monotonicity: `x * y / (x + s) ≤ y`. -/
lemma div_le_of_num_le (x y s : Nat) : x * y / (x + s) ≤ y := by
  rcases Nat.eq_zero_or_pos (x + s) with h | h
  · have hx : x = 0 := by omega
    simp [hx]
  · have hle : x * y ≤ (x + s) * y := Nat.mul_le_mul_right y (Nat.le_add_right x s)
    have hd : x * y / (x + s) ≤ (x + s) * y / (x + s) := Nat.div_le_div_right hle
    rwa [Nat.mul_div_cancel_left y h] at hd

/-- Since `s * y + x * y = (x + s) * y` divides exactly, the two floors
`s * y / (x + s)` and `x * y / (x + s)` together miss `y` by at most one
unit.  This is the exact gap between the direct CPMM quotient form and the
k-subtraction form used by the helpers. -/
lemma div_complement_bounds (x y s : Nat) (h : 0 < x + s) :
    s * y / (x + s) ≤ y - x * y / (x + s)
      ∧ y - x * y / (x + s) ≤ s * y / (x + s) + 1 := by
  have key : (s * y + x * y) / (x + s) = s * y / (x + s) + x * y / (x + s)
      + if x + s ≤ s * y % (x + s) + x * y % (x + s) then 1 else 0 := Nat.add_div h
  have hsum : s * y + x * y = (x + s) * y := by ring
  have hc : (x + s) * y / (x + s) = y := Nat.mul_div_cancel_left y h
  rw [hsum, hc] at key
  have hxy : x * y / (x + s) ≤ y := div_le_of_num_le x y s
  by_cases hif : x + s ≤ s * y % (x + s) + x * y % (x + s) <;> simp [hif] at key <;> omega

/-- Unfolding of `calculate_payout` at outcome YES. -/
lemma calculate_payout_yes (y n sh : Nat) :
    calculate_payout y n 1 sh = n - y * n / (y + sh) := by
  simp [calculate_payout]

/-- Unfolding of `calculate_payout` at outcome NO. -/
lemma calculate_payout_no (y n sh : Nat) :
    calculate_payout y n 0 sh = y - y * n / (n + sh) := by
  simp [calculate_payout]

/-- Everything a completed `sell_shares` call guarantees, read off the
source: the validations that were passed, the payout/fee arithmetic, and the
exact reserve values written back.  The output-side reserve written back is
exactly `k / (reserve_in + shares)`. -/
lemma sell_shares_success (fb : Nat) (pe : Bool) (y n us oc sh mp : Nat)
    (r : SellResult) (h : sell_shares fb pe y n us oc sh mp = some r) :
    0 < sh ∧ sh ≤ us ∧ oc ≤ 1 ∧ pe = true
      ∧ r.payout = calculate_payout y n oc sh
      ∧ r.fee = r.payout * fb / 10000
      ∧ r.payout_after_fee = r.payout - r.fee
      ∧ mp ≤ r.payout_after_fee
      ∧ r.new_user_shares = us - sh
      ∧ (oc = 1 → r.new_yes_reserve = y + sh ∧ r.new_no_reserve = y * n / (y + sh))
      ∧ (oc = 0 → r.new_no_reserve = n + sh ∧ r.new_yes_reserve = y * n / (n + sh)) := by
  have hoc3 : oc = 0 ∨ oc = 1 ∨ 1 < oc := by omega
  rcases hoc3 with hoc | hoc | hoc
  · -- outcome = 0 branch
    subst hoc
    simp only [sell_shares] at h
    rw [if_neg (by omega : ¬ (1:Nat) < 0)] at h
    split_ifs at h
    all_goals try exact (‹False›).elim
    simp only [Option.some.injEq] at h
    subst h
    have hq : y * n / (n + sh) ≤ y := by
      have hn' := div_le_of_num_le n y sh
      rwa [Nat.mul_comm] at hn'
    have hpe : pe = true := by cases pe <;> simp_all
    simp only [calculate_payout_no] at *
    refine ⟨by omega, by omega, by omega, hpe, ?_, ?_, ?_, ?_, ?_, ?_, ?_⟩
    all_goals try trivial
    all_goals try omega
    all_goals intro h0
    all_goals exact ⟨trivial, Nat.sub_sub_self hq⟩
  · -- outcome = 1 branch
    subst hoc
    simp only [sell_shares] at h
    rw [if_neg (by omega : ¬ (1:Nat) < 1)] at h
    split_ifs at h
    simp only [Option.some.injEq] at h
    subst h
    have hq : y * n / (y + sh) ≤ n := div_le_of_num_le y n sh
    have hpe : pe = true := by cases pe <;> simp_all
    simp only [calculate_payout_yes] at *
    refine ⟨by omega, by omega, by omega, hpe, ?_, ?_, ?_, ?_, ?_, ?_, ?_⟩
    all_goals try trivial
    all_goals try omega
    all_goals intro h0
    all_goals exact ⟨trivial, Nat.sub_sub_self hq⟩
  · -- invalid outcome: the first guard rejects
    simp only [sell_shares] at h
    rw [if_pos hoc] at h
    exact Option.noConfusion h

/-- Commuted reading of a failed strict-inequality check. -/
lemma le_mul_comm {a b c : Nat} (h : ¬ b * c < a) : a ≤ c * b := by
  rw [Nat.mul_comm c b]
  exact Nat.le_of_not_lt h

/-- A completed `buy_shares` call never decreases the reserve product: the
success path passes the explicit constant-product check of `amm.rs` lines
264-269, and the reserves written back are the checked pair. -/
lemma buy_shares_k (fb : Nat) (pe : Bool) (y n oc amt ms : Nat) (r : BuyResult)
    (h : buy_shares fb pe y n oc amt ms = some r) :
    y * n ≤ r.new_yes_reserve * r.new_no_reserve := by
  have hoc3 : oc = 0 ∨ oc = 1 ∨ 1 < oc := by omega
  rcases hoc3 with hoc | hoc | hoc
  · subst hoc
    simp only [buy_shares] at h
    rw [if_neg (by omega : ¬ (1:Nat) < 0)] at h
    split_ifs at h
    all_goals try exact (‹False›).elim
    simp only [Option.some.injEq] at h
    subst h
    dsimp only
    exact Nat.le_of_not_lt (by assumption)
  · subst hoc
    simp only [buy_shares] at h
    rw [if_neg (by omega : ¬ (1:Nat) < 1)] at h
    split_ifs at h
    simp only [Option.some.injEq] at h
    subst h
    dsimp only
    exact le_mul_comm (by assumption)
  · simp only [buy_shares] at h
    rw [if_pos hoc] at h
    exact Option.noConfusion h

/-! ### Claims C1 to C4 and C10: trading arithmetic -/

/-- C1 (counterexample): the claim asserts that the reserve product is
non-decreasing across every successful buy AND sell.  A successful sell on the
pool `(1000, 1000)` of 50 YES shares (Scenario B of the specification) leaves
reserves `(1050, 952)`, and `1050 * 952 = 999600 < 1000000`: the product
strictly decreases, because the output reserve is set to
`floor(k / (reserveIn + sharesIn))`. -/
theorem C1_counterexample_sell_decreases_k :
    sell_shares 20 true 1000 1000 100 1 50 1 = some ⟨48, 0, 48, 1050, 952, 50⟩
      ∧ 1050 * 952 < 1000 * 1000 :=
  ⟨by decide, by decide⟩

/-- C1 (amended): across trades with any positive fee, the reserve product is
non-decreasing for every successful buy (the success path passes the explicit
constant-product check), but NON-INCREASING for every successful sell: the
output reserve is set to `floor(k / (reserveIn + sharesIn))`, so the product
after a sell is `(reserveIn + sharesIn) * floor(k / (reserveIn + sharesIn)) ≤ k`,
with equality only when the division is exact. -/
theorem C1_k_monotonicity (fee_bps : Nat) (pe : Bool)
    (y n us oc amt sh ms mp : Nat) (_hfee : 0 < fee_bps) :
    (∀ r : BuyResult, buy_shares fee_bps pe y n oc amt ms = some r →
      y * n ≤ r.new_yes_reserve * r.new_no_reserve)
    ∧ (∀ r : SellResult, sell_shares fee_bps pe y n us oc sh mp = some r →
      r.new_yes_reserve * r.new_no_reserve ≤ y * n) := by
  constructor
  · intro r h
    exact buy_shares_k fee_bps pe y n oc amt ms r h
  · intro r h
    obtain ⟨hsh, -, hoc, -, -, -, -, -, -, h1, h0⟩ :=
      sell_shares_success fee_bps pe y n us oc sh mp r h
    rcases (by omega : oc = 0 ∨ oc = 1) with hoc2 | hoc2
    · obtain ⟨e1, e2⟩ := h0 hoc2
      rw [e2, e1]
      exact Nat.div_mul_le_self (y * n) (n + sh)
    · obtain ⟨e1, e2⟩ := h1 hoc2
      rw [e1, e2, Nat.mul_comm]
      exact Nat.div_mul_le_self (y * n) (y + sh)

/-- C1 (witness): the amended theorem applied to a concrete buy of 100 against
the pool `(1000, 1000)` (which yields 90 shares and reserves `(910, 1100)`) and
to the Scenario B sell. -/
theorem C1_k_monotonicity_witness :
    1000 * 1000 ≤ 910 * 1100 ∧ 1050 * 952 ≤ 1000 * 1000 :=
  ⟨(C1_k_monotonicity 20 true 1000 1000 100 1 100 50 0 1 (by decide)).1
      ⟨90, 0, 910, 1100⟩ (by decide),
   (C1_k_monotonicity 20 true 1000 1000 100 1 100 50 0 1 (by decide)).2
      ⟨48, 0, 48, 1050, 952, 50⟩ (by decide)⟩

/-- C2 (counterexample): the claim asserts every successful sell leaves both
reserves strictly positive, a drain being rejected with CannotDrainPool.
`sell_shares` has no such check: on the pool `(1, 1)` a seller holding 1 YES
share sells it with minPayout 1; the call completes and leaves the NO reserve
at exactly 0. -/
theorem C2_counterexample_sell_drains_reserve :
    sell_shares 20 true 1 1 1 1 1 1 = some ⟨1, 0, 1, 2, 0, 0⟩
      ∧ (SellResult.mk 1 0 1 2 0 0).new_no_reserve = 0 :=
  ⟨by decide, rfl⟩

/-- C2 (amended): every successful `remove_liquidity` leaves both reserves
strictly positive (the source checks this explicitly and aborts otherwise).
`sell_shares` performs no drain check: a successful sell raises the sold
outcome reserve to `reserveIn + sharesIn` and lowers the other reserve to
exactly `floor(reserveIn * reserveOut / (reserveIn + sharesIn))`, which is
never negative but can be exactly 0. -/
theorem C2_reserve_positivity (pe : Bool) (fb lb ls y n us oc sh mp lt : Nat) :
    (∀ r : RemoveLiquidityResult, remove_liquidity pe lb ls y n lt = some r →
      0 < r.new_yes_reserve ∧ 0 < r.new_no_reserve)
    ∧ (∀ r : SellResult, sell_shares fb pe y n us oc sh mp = some r →
      (oc = 1 → r.new_yes_reserve = y + sh ∧ r.new_no_reserve = y * n / (y + sh))
      ∧ (oc = 0 → r.new_no_reserve = n + sh ∧ r.new_yes_reserve = y * n / (n + sh))) := by
  constructor
  · intro r h
    simp only [remove_liquidity] at h
    split_ifs at h
    simp only [Option.some.injEq] at h
    subst h
    dsimp only
    have hz : ¬ (y - lt * y / ls = 0 ∨ n - lt * n / ls = 0) := by assumption
    omega
  · intro r h
    obtain ⟨-, -, -, -, -, -, -, -, -, h1, h0⟩ :=
      sell_shares_success fb pe y n us oc sh mp r h
    exact ⟨h1, h0⟩

/-- C2 (witness): the amended theorem applied to a concrete liquidity removal
(50 of 100 LP tokens against reserves `(1000, 1000)`, withdrawing 500 of each
side) and to the draining sell on the pool `(1, 1)`. -/
theorem C2_reserve_positivity_witness :
    (0 < 500 ∧ 0 < 500)
      ∧ ((SellResult.mk 1 0 1 2 0 0).new_yes_reserve = 1 + 1
        ∧ (SellResult.mk 1 0 1 2 0 0).new_no_reserve = 1 * 1 / (1 + 1)) :=
  ⟨(C2_reserve_positivity true 20 100 100 1000 1000 1 1 1 1 50).1
      ⟨500, 500, 500, 500, 50, 50⟩ (by decide),
   ((C2_reserve_positivity true 20 100 100 1 1 1 1 1 1 50).2
      ⟨1, 0, 1, 2, 0, 0⟩ (by decide)).1 rfl⟩

/-- C3 (counterexample): the claim states the gross payout of a successful
sell is `floor(sharesIn * reserveOut / (reserveIn + sharesIn))`.  Selling 10
YES shares against the pool `(1000, 1000)` succeeds with gross payout 10,
while `floor(10 * 1000 / 1010) = 9`. -/
theorem C3_counterexample_gross_payout :
    sell_shares 20 true 1000 1000 100 1 10 1 = some ⟨10, 0, 10, 1010, 990, 90⟩
      ∧ (SellResult.mk 10 0 10 1010 990 90).payout ≠ 10 * 1000 / (1000 + 10) :=
  ⟨by decide, by decide⟩

/-- C3 (amended): the gross payout of a successful sell is
`reserveOut - floor(reserveIn * reserveOut / (reserveIn + sharesIn))`
(the k-subtraction form of `calculate_payout`); it equals the quotient form
`floor(sharesIn * reserveOut / (reserveIn + sharesIn))` of the claim when the
division is exact and exceeds it by exactly 1 otherwise, so it always lies
between the quotient form and the quotient form plus one. -/
theorem C3_gross_payout_formula (fb : Nat) (pe : Bool) (y n us oc sh mp : Nat)
    (r : SellResult) (h : sell_shares fb pe y n us oc sh mp = some r) :
    (oc = 1 → r.payout = n - y * n / (y + sh)
      ∧ sh * n / (y + sh) ≤ r.payout ∧ r.payout ≤ sh * n / (y + sh) + 1)
    ∧ (oc = 0 → r.payout = y - y * n / (n + sh)
      ∧ sh * y / (n + sh) ≤ r.payout ∧ r.payout ≤ sh * y / (n + sh) + 1) := by
  obtain ⟨hsh, -, -, -, hp, -, -, -, -, -, -⟩ :=
    sell_shares_success fb pe y n us oc sh mp r h
  constructor
  · intro h1
    subst h1
    rw [hp, calculate_payout_yes]
    have hb := div_complement_bounds y n sh (by omega)
    exact ⟨rfl, hb.1, hb.2⟩
  · intro h0
    subst h0
    rw [hp, calculate_payout_no]
    have hb := div_complement_bounds n y sh (by omega)
    rw [Nat.mul_comm n y] at hb
    exact ⟨rfl, hb.1, hb.2⟩

/-- C3 (witness): the amended theorem applied to the Scenario B sell: gross
payout 48 equals `1000 - floor(1000000 / 1050)` and lies between
`floor(50 * 1000 / 1050) = 47` and 48. -/
theorem C3_gross_payout_witness :
    (SellResult.mk 48 0 48 1050 952 50).payout = 1000 - 1000 * 1000 / (1000 + 50)
      ∧ 50 * 1000 / (1000 + 50) ≤ (SellResult.mk 48 0 48 1050 952 50).payout
      ∧ (SellResult.mk 48 0 48 1050 952 50).payout ≤ 50 * 1000 / (1000 + 50) + 1 :=
  (C3_gross_payout_formula 20 true 1000 1000 100 1 50 1
    ⟨48, 0, 48, 1050, 952, 50⟩ (by decide)).1 rfl

/-- C4: Scenario B evaluated on the embedded `sell_shares`: pool
`(1000, 1000)`, caller holds 100 YES shares, selling 50 YES with minPayout 1
completes with gross payout 48, fee `floor(48 * 20 / 10000) = 0`, net payout
48, reserves `(1050, 952)` with `952 = floor(1000000 / 1050)`, and the caller
keeps 50 YES shares. -/
theorem C4_scenario_b :
    sell_shares 20 true 1000 1000 100 1 50 1 = some ⟨48, 0, 48, 1050, 952, 50⟩
      ∧ 1000000 / 1050 = 952 ∧ 48 * 20 / 10000 = 0 ∧ 100 - 50 = 50 :=
  ⟨by decide, by decide, by decide, by decide⟩

/-- C10 (counterexample): the claim asserts the inline buy formula
`floor(a * y / (x + a))` and the helper `calculate_shares_out` agree on all
positive inputs.  At reserves `(1000, 1000)` with input 50 the helper returns
48 while the inline formula gives 47. -/
theorem C10_counterexample_formulas_differ :
    calculate_shares_out 1000 1000 1 50 = 48 ∧ 50 * 1000 / (1000 + 50) = 47 :=
  ⟨by decide, by decide⟩

/-- C10 (amended): for positive reserves and a positive input, the helper
`calculate_shares_out` (k-subtraction form) is bounded below by the inline
quotient formula of `buy_shares` and exceeds it by at most 1; the two agree
exactly when `(reserveIn + amountIn)` divides `reserveIn * reserveOut`. -/
theorem C10_shares_out_bounds (y n oc a : Nat)
    (hy : 0 < y) (hn : 0 < n) (ha : 0 < a) (hoc : oc ≤ 1) :
    (oc = 1 → a * y / (n + a) ≤ calculate_shares_out y n oc a
      ∧ calculate_shares_out y n oc a ≤ a * y / (n + a) + 1)
    ∧ (oc = 0 → a * n / (y + a) ≤ calculate_shares_out y n oc a
      ∧ calculate_shares_out y n oc a ≤ a * n / (y + a) + 1) := by
  constructor
  · intro h1
    subst h1
    have hb := div_complement_bounds n y a (by omega)
    rw [Nat.mul_comm n y] at hb
    simpa [calculate_shares_out] using hb
  · intro h0
    subst h0
    have hb := div_complement_bounds y n a (by omega)
    simpa [calculate_shares_out] using hb

/-- C10 (witness): the amended bounds at reserves `(1000, 1000)` and input 50:
`47 ≤ calculate_shares_out 1000 1000 1 50 = 48 ≤ 47 + 1`. -/
theorem C10_shares_out_bounds_witness :
    50 * 1000 / (1000 + 50) ≤ calculate_shares_out 1000 1000 1 50
      ∧ calculate_shares_out 1000 1000 1 50 ≤ 50 * 1000 / (1000 + 50) + 1 :=
  (C10_shares_out_bounds 1000 1000 1 50 (by decide) (by decide) (by decide)
    (by decide)).1 rfl

/-! ### Claim C5: odds arithmetic -/

/-- In the two-sided branch of `get_odds`, the floor odds sum to 10000 or
9999: both quotients share the divisor `y + n` and their numerators add up to
exactly `(y + n) * 10000`. -/
lemma odds_sum_bounds (y n : Nat) (hy : 0 < y) (hn : 0 < n) :
    9999 ≤ n * 10000 / (y + n) + y * 10000 / (y + n)
      ∧ n * 10000 / (y + n) + y * 10000 / (y + n) ≤ 10000 := by
  have htot : 0 < y + n := by omega
  have key : (n * 10000 + y * 10000) / (y + n)
      = n * 10000 / (y + n) + y * 10000 / (y + n)
        + if y + n ≤ n * 10000 % (y + n) + y * 10000 % (y + n) then 1 else 0 :=
    Nat.add_div htot
  have hsum : n * 10000 + y * 10000 = (y + n) * 10000 := by ring
  have hc : (y + n) * 10000 / (y + n) = 10000 := Nat.mul_div_cancel_left 10000 htot
  rw [hsum, hc] at key
  by_cases hif : y + n ≤ n * 10000 % (y + n) + y * 10000 % (y + n) <;>
    simp [hif] at key <;> omega

/-- C5: `get_odds` always returns a pair summing to exactly 10000; a missing
pool gives `(5000, 5000)`; a drained YES (resp. NO) reserve gives
`(0, 10000)` (resp. `(10000, 0)`); in the two-sided case the odds are the
floor quotients with any rounding shortfall added to the side whose odds are
not smaller, so a tie favors the YES side. -/
theorem C5_get_odds_spec (pe : Bool) (y n : Nat) :
    ((get_odds pe y n).1 + (get_odds pe y n).2 = 10000)
    ∧ (pe = false → get_odds pe y n = (5000, 5000))
    ∧ (0 < n → get_odds true 0 n = (0, 10000))
    ∧ (0 < y → get_odds true y 0 = (10000, 0))
    ∧ (0 < y → 0 < n →
        (n * 10000 / (y + n) + y * 10000 / (y + n) = 10000 →
          get_odds true y n = (n * 10000 / (y + n), y * 10000 / (y + n)))
        ∧ (n * 10000 / (y + n) + y * 10000 / (y + n) < 10000 →
            y * 10000 / (y + n) ≤ n * 10000 / (y + n) →
            get_odds true y n = (n * 10000 / (y + n)
              + (10000 - (n * 10000 / (y + n) + y * 10000 / (y + n))),
              y * 10000 / (y + n)))
        ∧ (n * 10000 / (y + n) + y * 10000 / (y + n) < 10000 →
            n * 10000 / (y + n) < y * 10000 / (y + n) →
            get_odds true y n = (n * 10000 / (y + n),
              y * 10000 / (y + n)
                + (10000 - (n * 10000 / (y + n) + y * 10000 / (y + n)))))) := by
  refine ⟨?_, ?_, ?_, ?_, ?_⟩
  · cases pe with
    | false => simp [get_odds]
    | true =>
      by_cases hy : y = 0 <;> by_cases hn : n = 0
      · simp [get_odds, hy, hn]
      · simp [get_odds, hy, hn]
      · simp [get_odds, hy, hn]
      · have hb := odds_sum_bounds y n (by omega) (by omega)
        simp only [get_odds, hy, hn]
        split_ifs <;> dsimp only <;> omega
  · intro hpe
    subst hpe
    simp [get_odds]
  · intro hn
    have hn0 : ¬ n = 0 := by omega
    simp [get_odds, hn0]
  · intro hy
    have hy0 : ¬ y = 0 := by omega
    simp [get_odds, hy0]
  · intro hy hn
    have hy0 : ¬ y = 0 := by omega
    have hn0 : ¬ n = 0 := by omega
    refine ⟨?_, ?_, ?_⟩
    · intro heq
      simp [get_odds, hy0, hn0]
      exact fun hne => absurd heq hne
    · intro hlt hle
      simp [get_odds, hy0, hn0]
      rw [if_neg (by omega : ¬ n * 10000 / (y + n) + y * 10000 / (y + n) = 10000),
        if_pos hle]
    · intro hlt hgt
      simp [get_odds, hy0, hn0]
      rw [if_neg (by omega : ¬ n * 10000 / (y + n) + y * 10000 / (y + n) = 10000),
        if_neg (by omega : ¬ y * 10000 / (y + n) ≤ n * 10000 / (y + n))]

/-- C5 (witness): the spec applied to the pool `(1, 3)` (exact division:
odds `(7500, 2500)`), to a missing pool, and to a drained YES reserve. -/
theorem C5_get_odds_witness :
    (get_odds true 1 3).1 + (get_odds true 1 3).2 = 10000
      ∧ get_odds false 1 3 = (5000, 5000)
      ∧ get_odds true 0 3 = (0, 10000) :=
  ⟨(C5_get_odds_spec true 1 3).1,
   (C5_get_odds_spec false 1 3).2.1 rfl,
   (C5_get_odds_spec true 0 3).2.2.1 (by decide)⟩

/-! ### Claim C6: oracle consensus -/

/-- Every recorded vote is counted exactly once, as YES when it equals 1 and
as NO otherwise. -/
lemma count_partition (votes : List Nat) :
    count_yes_votes votes + count_no_votes votes = votes.length := by
  induction votes with
  | nil => rfl
  | cons v vs ih =>
    simp only [count_yes_votes, count_no_votes, List.filter_cons] at *
    cases hv : v == 1 <;> simp [hv] <;> omega

/-- Closed form of the decision ladder of `check_consensus`: the early
length exit never changes the answer, because a count can only reach the
threshold when the number of voters does. -/
lemma check_consensus_spec (threshold : Nat) (votes : List Nat) :
    check_consensus threshold votes =
      if threshold ≤ count_yes_votes votes
          ∧ count_no_votes votes < count_yes_votes votes then (true, 1)
      else if threshold ≤ count_no_votes votes
          ∧ count_yes_votes votes < count_no_votes votes then (true, 0)
      else (false, 0) := by
  have hpart := count_partition votes
  simp only [check_consensus]
  split_ifs
  all_goals first | rfl | exact (by omega : False).elim

/-- C6: `check_consensus` returns `(true, o)` exactly when the count for
outcome `o` is at least the threshold and strictly exceeds the other count;
when both counts reach the threshold and are equal it reports no consensus;
with threshold 2, two YES votes give `(true, 1)`, a single vote gives
`(false, 0)`, and a 2-vs-2 tie gives `(false, 0)`. -/
theorem C6_consensus_evaluation (threshold : Nat) (votes : List Nat) :
    (check_consensus threshold votes = (true, 1)
      ↔ threshold ≤ count_yes_votes votes
        ∧ count_no_votes votes < count_yes_votes votes)
    ∧ (check_consensus threshold votes = (true, 0)
      ↔ threshold ≤ count_no_votes votes
        ∧ count_yes_votes votes < count_no_votes votes)
    ∧ (threshold ≤ count_yes_votes votes → threshold ≤ count_no_votes votes →
        count_yes_votes votes = count_no_votes votes →
        check_consensus threshold votes = (false, 0))
    ∧ check_consensus 2 [1, 1] = (true, 1)
    ∧ check_consensus 2 [1] = (false, 0)
    ∧ check_consensus 2 [1, 1, 0, 0] = (false, 0) := by
  refine ⟨?_, ?_, ?_, by decide, by decide, by decide⟩
  all_goals rw [check_consensus_spec]
  all_goals split_ifs with h1 h2
  all_goals simp
  all_goals omega

/-- C6 (witness): the evaluation theorem applied at threshold 2 to the
two-YES-votes list and to the 2-vs-2 tie. -/
theorem C6_consensus_witness :
    check_consensus 2 [1, 1] = (true, 1)
      ∧ check_consensus 2 [1, 1, 0, 0] = (false, 0) :=
  ⟨(C6_consensus_evaluation 2 [1, 1]).1.mpr (by decide),
   (C6_consensus_evaluation 2 [1, 1, 0, 0]).2.2.1 (by decide) (by decide) (by decide)⟩

/-! ### Claims C7 to C9: market resolution and claims -/

/-- A successful checked multiply returns exactly the mathematical product. -/
lemma checked_mul_i128_some {a b c : Int} (h : checked_mul_i128 a b = some c) :
    c = a * b := by
  unfold checked_mul_i128 at h
  split_ifs at h
  simpa using h.symm

/-- A successful checked divide returns exactly the truncated quotient. -/
lemma checked_div_i128_some {a b c : Int} (h : checked_div_i128 a b = some c) :
    c = a.tdiv b := by
  unfold checked_div_i128 at h
  split_ifs at h
  simpa using h.symm

/-- C7: a claim that completes starts from an unclaimed record, writes the
record back with `claimed = true`, and a second claim against the written-back
record fails with AlreadyClaimed.  An error path writes nothing, so the failed
second call changes neither the paid amount nor any state, and the flag never
reverts: only the single transition from false to true ever happens. -/
theorem C7_claim_idempotence (st : MarketState) (p : UserPrediction) :
    ∀ net p2, claim_winnings st (some p) = Except.ok (net, p2) →
      p.claimed = false ∧ p2.claimed = true
        ∧ claim_winnings st (some p2) = Except.error ClaimError.AlreadyClaimed := by
  intro net p2 h
  simp only [claim_winnings] at h
  split_ifs at h with h1 h2 h3 h4
  rcases hm : checked_mul_i128 p.amount (st.winner_shares + st.loser_shares) with _ | prod
  · simp only [hm] at h
    exact Except.noConfusion h
  simp only [hm] at h
  rcases hd : checked_div_i128 prod st.winner_shares with _ | gross
  · simp only [hd] at h
    exact Except.noConfusion h
  simp only [hd] at h
  split_ifs at h with h5
  simp only [Except.ok.injEq, Prod.mk.injEq] at h
  obtain ⟨-, hp2⟩ := h
  subst hp2
  refine ⟨by simpa using h2, rfl, ?_⟩
  simp only [claim_winnings]
  rw [if_neg h1]
  simp

set_option maxRecDepth 4000 in
/-- C7 (witness): idempotence applied to a resolved market with winner pool
1000 and a winning record of 1000: the first claim pays 900 and the record it
writes back is rejected with AlreadyClaimed. -/
theorem C7_claim_idempotence_witness :
    (UserPrediction.mk 1 1000 false).claimed = false
      ∧ (UserPrediction.mk 1 1000 true).claimed = true
      ∧ claim_winnings ⟨2, 0, 0, 1, 1000, 0⟩ (some (UserPrediction.mk 1 1000 true))
          = Except.error ClaimError.AlreadyClaimed :=
  C7_claim_idempotence ⟨2, 0, 0, 1, 1000, 0⟩ ⟨1, 1000, false⟩ 900 ⟨1, 1000, true⟩ rfl

set_option maxRecDepth 4000 in
/-- C8: for a successful claim with a nonnegative recorded amount, positive
winner total and nonnegative loser total, the net payout equals
`gross - gross / 10` with
`gross = floor(amount * (winner + loser) / winner)` (the checked multiply and
checked divide of the source), and a successful claim never pays zero; when
all earlier checks pass, the product stays in the `i128` range and the
computed net payout is zero, the call is rejected with ZeroPayout; the
Scenario C instance (winner 1000, loser 500, amount 500) pays gross 750,
fee 75, net 675. -/
theorem C8_payout_formula (st : MarketState) (p : UserPrediction)
    (hA : 0 ≤ p.amount) (hW : 0 < st.winner_shares) (hL : 0 ≤ st.loser_shares) :
    (∀ net p2, claim_winnings st (some p) = Except.ok (net, p2) →
      net = p.amount * (st.winner_shares + st.loser_shares) / st.winner_shares
          - p.amount * (st.winner_shares + st.loser_shares) / st.winner_shares / 10
        ∧ net ≠ 0)
    ∧ (st.state = STATE_RESOLVED → p.claimed = false →
        p.outcome = st.winning_outcome →
        p.amount * (st.winner_shares + st.loser_shares) ≤ I128_MAX →
        p.amount * (st.winner_shares + st.loser_shares) / st.winner_shares
          - p.amount * (st.winner_shares + st.loser_shares) / st.winner_shares / 10
          = 0 →
        claim_winnings st (some p) = Except.error ClaimError.ZeroPayout)
    ∧ claim_winnings ⟨2, 0, 0, 1, 1000, 500⟩ (some ⟨1, 500, false⟩)
        = Except.ok (675, ⟨1, 500, true⟩) := by
  have hprodNN : 0 ≤ p.amount * (st.winner_shares + st.loser_shares) :=
    mul_nonneg hA (by omega)
  have hWne : (0:Int) ≤ st.winner_shares := by omega
  have htd : (p.amount * (st.winner_shares + st.loser_shares)).tdiv st.winner_shares
      = p.amount * (st.winner_shares + st.loser_shares) / st.winner_shares :=
    Int.tdiv_eq_ediv hprodNN hWne
  have hGnn : 0 ≤ p.amount * (st.winner_shares + st.loser_shares) / st.winner_shares :=
    Int.ediv_nonneg hprodNN hWne
  have hfee : (p.amount * (st.winner_shares + st.loser_shares)
        / st.winner_shares).tdiv 10
      = p.amount * (st.winner_shares + st.loser_shares) / st.winner_shares / 10 :=
    Int.tdiv_eq_ediv hGnn (by norm_num)
  refine ⟨?_, ?_, rfl⟩
  · intro net p2 h
    simp only [claim_winnings] at h
    split_ifs at h with h1 h2 h3 h4
    rcases hm : checked_mul_i128 p.amount (st.winner_shares + st.loser_shares)
        with _ | prod
    · simp only [hm] at h
      exact Except.noConfusion h
    simp only [hm] at h
    rcases hd : checked_div_i128 prod st.winner_shares with _ | gross
    · simp only [hd] at h
      exact Except.noConfusion h
    simp only [hd] at h
    split_ifs at h with h5
    simp only [Except.ok.injEq, Prod.mk.injEq] at h
    obtain ⟨hnet, -⟩ := h
    have hprod := checked_mul_i128_some hm
    subst hprod
    have hgross := checked_div_i128_some hd
    subst hgross
    subst hnet
    rw [htd, hfee]
    refine ⟨rfl, ?_⟩
    rw [htd, hfee] at h5
    exact h5
  · intro hs hc ho hbound hzero
    have hMl : I128_MIN ≤ p.amount * (st.winner_shares + st.loser_shares) :=
      le_trans (by norm_num [I128_MIN]) hprodNN
    have hm : checked_mul_i128 p.amount (st.winner_shares + st.loser_shares)
        = some (p.amount * (st.winner_shares + st.loser_shares)) := by
      unfold checked_mul_i128
      rw [if_pos ⟨hMl, hbound⟩]
    have hd : checked_div_i128 (p.amount * (st.winner_shares + st.loser_shares))
        st.winner_shares
        = some ((p.amount * (st.winner_shares + st.loser_shares)).tdiv
            st.winner_shares) := by
      unfold checked_div_i128
      rw [if_neg (by omega : ¬ st.winner_shares = 0),
        if_neg (by rintro ⟨-, hmo⟩; omega)]
    have hw0 : ¬ st.winner_shares = 0 := by omega
    simp only [claim_winnings, hs, hc, ho, hw0, hm, hd]
    simp only [STATE_RESOLVED]
    rw [if_neg (by omega : ¬ (2:Nat) ≠ 2)]
    simp only [if_neg (by simp : ¬ false = true), ite_not]
    simp only [if_true, if_false]
    rw [htd, hfee, if_pos hzero]

set_option maxRecDepth 4000 in
/-- C8 (witness): the payout formula applied to the Scenario C instance:
net 675 equals `floor(500 * 1500 / 1000) - floor(750 / 10)` and is nonzero. -/
theorem C8_payout_witness :
    ((675 : Int) = 500 * (1000 + 500) / 1000 - 500 * (1000 + 500) / 1000 / 10
        ∧ (675 : Int) ≠ 0)
      ∧ claim_winnings ⟨2, 0, 0, 1, 1000, 500⟩ (some ⟨1, 500, false⟩)
          = Except.ok (675, ⟨1, 500, true⟩) :=
  ⟨(C8_payout_formula ⟨2, 0, 0, 1, 1000, 500⟩ ⟨1, 500, false⟩ (by norm_num)
      (by norm_num) (by norm_num)).1 675 ⟨1, 500, true⟩ rfl,
   (C8_payout_formula ⟨2, 0, 0, 1, 1000, 500⟩ ⟨1, 500, false⟩ (by norm_num)
      (by norm_num) (by norm_num)).2.2⟩

/-- C9: a resolve call completes exactly under the source guards: the
resolution time has passed, the market is CLOSED (neither OPEN nor already
RESOLVED), the oracle consensus is reached and its outcome is binary; on
completion the winner and loser totals are taken from the staking pools by
outcome and the state moves to RESOLVED.  Calls before the resolution time,
on an already-resolved market, or without consensus all return `none`, which
in this embedding is the rolled-back call with no state change. -/
theorem C9_resolve_guards (now rt : Nat) (c : Bool × Nat) (st : MarketState)
    (hst : st.state ≤ 2) :
    (∀ st2, resolve_market now rt c st = some st2 →
        rt ≤ now ∧ st.state = STATE_CLOSED ∧ c.1 = true ∧ c.2 ≤ 1
          ∧ st2.state = STATE_RESOLVED ∧ st2.winning_outcome = c.2
          ∧ st2.winner_shares = (if c.2 = 1 then st.yes_pool else st.no_pool)
          ∧ st2.loser_shares = (if c.2 = 1 then st.no_pool else st.yes_pool)
          ∧ st2.yes_pool = st.yes_pool ∧ st2.no_pool = st.no_pool)
    ∧ (now < rt → resolve_market now rt c st = none)
    ∧ (st.state = STATE_RESOLVED → resolve_market now rt c st = none)
    ∧ (c.1 = false → resolve_market now rt c st = none) := by
  refine ⟨?_, ?_, ?_, ?_⟩
  · intro st2 h
    simp only [resolve_market] at h
    split_ifs at h with h1 h2 h3 h4 h5 h6
    all_goals simp only [Option.some.injEq] at h
    all_goals subst h
    all_goals simp only [STATE_OPEN, STATE_CLOSED, STATE_RESOLVED] at *
    all_goals have hc1 : c.1 = true := by cases hcv : c.1 <;> simp_all
    all_goals refine ⟨by omega, by omega, hc1, by omega, ?_, ?_, ?_, ?_, ?_, ?_⟩
    all_goals try trivial
    all_goals try split_ifs
    all_goals rfl
  · intro hlt
    simp only [resolve_market]
    rw [if_pos hlt]
  · intro hres
    simp [resolve_market, hres, STATE_OPEN, STATE_RESOLVED]
  · intro hcf
    simp [resolve_market, hcf]

/-- C9 (witness): the guards applied concretely: resolving at time 2990
before resolution time 3000 fails, and resolving without consensus fails. -/
theorem C9_resolve_witness :
    resolve_market 2990 3000 (true, 1) ⟨1, 700, 300, 0, 0, 0⟩ = none
      ∧ resolve_market 3010 3000 (false, 0) ⟨1, 700, 300, 0, 0, 0⟩ = none :=
  ⟨(C9_resolve_guards 2990 3000 (true, 1) ⟨1, 700, 300, 0, 0, 0⟩ (by decide)).2.1
      (by decide),
   (C9_resolve_guards 3010 3000 (false, 0) ⟨1, 700, 300, 0, 0, 0⟩ (by decide)).2.2.2
      rfl⟩

end Boxmeout
